import Mathlib

/-!
Verification of the sc_language_server stdio/UDP relay.

This file gives a shallow embedding of the core of
sc_language_server/sc_language_server.py: the UDPSender (chunker), the
UDPReceiveToStdoutProtocol (reassembler), the SCRunner readiness gating and
stop sequence, and the port resolution logic of main.  Bytes are modelled as
natural numbers (values below 256 in all inputs of interest), Python str
values as lists of Unicode codepoints, and side effects (transport writes,
log calls, stdout writes) as explicit event lists.
-/

set_option maxHeartbeats 1000000
set_option maxRecDepth 8000

/-- Byte values of an ASCII string literal (each char is one byte since all
literals used here are ASCII). -/
def asciiBytes (s : String) : List Nat := s.toList.map Char.toNat

/-- UTF-8 encoding of a single Unicode codepoint (the encoding Python's
str.encode produces for valid scalar values). -/
def utf8EncodeChar (c : Nat) : List Nat :=
  if c < 0x80 then [c]
  else if c < 0x800 then [0xC0 + c / 0x40, 0x80 + c % 0x40]
  else if c < 0x10000 then
    [0xE0 + c / 0x1000, 0x80 + c / 0x40 % 0x40, 0x80 + c % 0x40]
  else
    [0xF0 + c / 0x40000, 0x80 + c / 0x1000 % 0x40, 0x80 + c / 0x40 % 0x40,
     0x80 + c % 0x40]

/-- UTF-8 encoding of a string of codepoints. -/
def utf8Encode (cps : List Nat) : List Nat := cps.flatMap utf8EncodeChar

/-- Is a byte a UTF-8 continuation byte? -/
def isCont (b : Nat) : Bool := 0x80 ≤ b && b < 0xC0

/-- Strict UTF-8 decoding, modelling Python's bytes.decode with its default
strict error handling: rejects stray continuation bytes, overlong forms,
surrogate codepoints and values above 0x10FFFF.  Returns the codepoints on
success and none where Python raises UnicodeDecodeError. -/
def utf8Decode : List Nat → Option (List Nat)
  | [] => some []
  | b :: rest =>
    if b < 0x80 then (utf8Decode rest).map (b :: ·)
    else if b < 0xC2 then none
    else if b < 0xE0 then
      match rest with
      | b1 :: r =>
        if isCont b1 then
          (utf8Decode r).map (((b - 0xC0) * 0x40 + (b1 - 0x80)) :: ·)
        else none
      | [] => none
    else if b < 0xF0 then
      match rest with
      | b1 :: b2 :: r =>
        if isCont b1 && isCont b2 && (b ≠ 0xE0 || 0xA0 ≤ b1)
            && (b ≠ 0xED || b1 < 0xA0) then
          (utf8Decode r).map
            (((b - 0xE0) * 0x1000 + (b1 - 0x80) * 0x40 + (b2 - 0x80)) :: ·)
        else none
      | _ => none
    else if b < 0xF5 then
      match rest with
      | b1 :: b2 :: b3 :: r =>
        if isCont b1 && isCont b2 && isCont b3 && (b ≠ 0xF0 || 0x90 ≤ b1)
            && (b ≠ 0xF4 || b1 < 0x90) then
          (utf8Decode r).map
            (((b - 0xF0) * 0x40000 + (b1 - 0x80) * 0x1000 + (b2 - 0x80) * 0x40
              + (b3 - 0x80)) :: ·)
        else none
      | _ => none
    else none

/-- MAX_UDP_PACKET_SIZE from the source. -/
def MAX_UDP_PACKET_SIZE : Nat := 508

/-- Observable side effects of the relay components: transport operations,
logger calls and stdout writes. -/
inductive Out where
  /-- transport.sendto of one chunk (UDPSender._send_chunk). -/
  | sendto (chunk : List Nat)
  /-- transport.close on the sender's transport. -/
  | senderTransportClose
  /-- logger.info with a fixed message. -/
  | logInfo (msg : String)
  /-- logger.warning with a fixed message. -/
  | logWarning (msg : String)
  /-- logger.error with a fixed message (formatted details abstracted away). -/
  | logError (msg : String)
  /-- sys.stdout.write of the given bytes followed by a flush. -/
  | stdout (bs : List Nat)
  /-- logger.info of one child output line (content after rstrip). -/
  | logLine (line : List Nat)
  /-- asyncio.create_task of SCRunner.__start_communication_from_sc. -/
  | startReceiver
  /-- asyncio.create_task of SCRunner.__start_communication_to_sc. -/
  | startSender
  /-- DatagramTransport.close on the receiver's transport. -/
  | receiverClose
  /-- StdinThread.join with timeout 5. -/
  | stdinJoin
  /-- StdinThread.close, which sets the thread's stop event. -/
  | stdinSignalStop
  /-- subprocess.terminate. -/
  | terminateChild
  deriving DecidableEq, Repr

/-- A payload passed to UDPSender.send: Python text (codepoints) or bytes. -/
inductive Payload where
  | text (cps : List Nat)
  | bytes (bs : List Nat)
  deriving DecidableEq, Repr

/-- Length of the payload as Python's len reports it: characters for text,
bytes for byte payloads. -/
def payloadLen : Payload → Nat
  | .text cps => cps.length
  | .bytes bs => bs.length

/-- The slices msg[offset : offset + MAX_UDP_PACKET_SIZE] taken by
UDPSender.send for offset in range(0, len(msg), MAX_UDP_PACKET_SIZE). -/
def sliceChunks (l : List Nat) : List (List Nat) :=
  (List.range ((l.length + (MAX_UDP_PACKET_SIZE - 1)) / MAX_UDP_PACKET_SIZE)).map
    (fun i => (l.drop (i * MAX_UDP_PACKET_SIZE)).take MAX_UDP_PACKET_SIZE)

/-- The chunk byte strings UDPSender.send hands to transport.sendto: each
slice of a text payload is UTF-8 encoded after slicing; byte payloads are
sliced as they are. -/
def sendChunks : Payload → List (List Nat)
  | .text cps => (sliceChunks cps).map utf8Encode
  | .bytes bs => sliceChunks bs

/-- UDPSender.send.  State is the _closed flag; the result is the list of
side effects (transport writes, or a warning when closed). -/
def UDPSender.send (closed : Bool) (msg : Payload) : List Out :=
  if closed then [Out.logWarning "Attempted to send data on a closed UDPSender"]
  else (sendChunks msg).map Out.sendto

/-- UDPSender.close: sets _closed and closes the transport exactly on the
first call.  Returns the new _closed flag and the side effects. -/
def UDPSender.close (closed : Bool) : Bool × List Out :=
  if closed then (closed, [])
  else (true, [Out.senderTransportClose, Out.logInfo "UDPSender closed"])

/-- n successive calls of UDPSender.close, accumulating side effects. -/
def closeIter : Nat → Bool → Bool × List Out
  | 0, c => (c, [])
  | n + 1, c =>
    let p1 := UDPSender.close c
    let p2 := closeIter n p1.1
    (p2.1, p1.2 ++ p2.2)

/-! ## Receiver (UDPReceiveToStdoutProtocol) -/

/-- Split a byte list at the first occurrence of the header/body delimiter
CRLFCRLF, as buffer.split(b"\r\n\r\n", 1) does when the delimiter is present
(some (before, after)); none models the b"\r\n\r\n" not in buffer case. -/
def splitAtDelim : List Nat → Option (List Nat × List Nat)
  | [] => none
  | b :: rest =>
    if b = 13 ∧ rest.take 3 = [10, 13, 10] then some ([], rest.drop 3)
    else
      match splitAtDelim rest with
      | some (pre, post) => some (b :: pre, post)
      | none => none

/-- Does the pattern occur at the head of the list? -/
def hasLead : List Nat → List Nat → Bool
  | [], _ => true
  | _ :: _, [] => false
  | p :: ps, b :: bs => p = b && hasLead ps bs

/-- Is the byte an ASCII decimal digit (regex \d over an ASCII header)? -/
def isDigitByte (b : Nat) : Bool := 48 ≤ b && b ≤ 57

/-- Decimal value of a big-endian ASCII digit run, as int() computes it. -/
def digitsToNat (ds : List Nat) : Nat :=
  ds.foldl (fun acc d => acc * 10 + (d - 48)) 0

/-- The literal part of the header pattern, byte values of
the text Content-Length followed by a colon and a space. -/
def clLit : List Nat := asciiBytes "Content-Length: "

/-- A match of the regex Content-Length: (\d+) anchored at the head of the
list: the literal followed by at least one digit; the captured group is the
maximal (greedy) digit run. -/
def matchCLAt (l : List Nat) : Option Nat :=
  if hasLead clLit l then
    let ds := (l.drop clLit.length).takeWhile isDigitByte
    if ds = [] then none else some (digitsToNat ds)
  else none

/-- re.search of Content-Length: (\d+) over the header bytes: the leftmost
position where the whole pattern matches. -/
def searchCL : List Nat → Option Nat
  | [] => none
  | b :: rest =>
    match matchCLAt (b :: rest) with
    | some n => some n
    | none => searchCL rest

/-- Decimal digit bytes of a natural number, via fuel that is always
sufficient (a number has at most n + 1 digits). -/
def natToDecDigitsAux : Nat → Nat → List Nat
  | 0, _ => []
  | fuel + 1, n =>
    if n < 10 then [48 + n]
    else natToDecDigitsAux fuel (n / 10) ++ [48 + n % 10]

/-- The ASCII decimal representation of a natural number, as Python's str
formats it into the re-synthesized header. -/
def natToDecDigits (n : Nat) : List Nat := natToDecDigitsAux (n + 1) n

/-- A successful delimiter split decomposes the buffer as
before, delimiter, after. -/
theorem splitAtDelim_some {l pre post : List Nat}
    (h : splitAtDelim l = some (pre, post)) :
    l = pre ++ 13 :: 10 :: 13 :: 10 :: post := by
  induction l generalizing pre post with
  | nil => simp [splitAtDelim] at h
  | cons b rest ih =>
    rw [splitAtDelim] at h
    split at h
    · rename_i hc
      obtain ⟨hb, ht⟩ := hc
      simp only [Option.some.injEq, Prod.mk.injEq] at h
      obtain ⟨h1, h2⟩ := h
      subst hb h1 h2
      have hr : rest = [10, 13, 10] ++ rest.drop 3 := by
        conv_lhs => rw [← List.take_append_drop 3 rest]
        rw [ht]
      rw [hr]
      simp
    · split at h
      · rename_i p q hs
        simp only [Option.some.injEq, Prod.mk.injEq] at h
        obtain ⟨h1, h2⟩ := h
        subst h1 h2
        simpa using ih hs
      · simp at h

/-- Receiver state: the reassembly buffer and the declared content length
(self.__buffer and self.__content_length). -/
structure RecvState where
  buffer : List Nat
  contentLength : Option Nat
  deriving DecidableEq, Repr

/-- Exceptions that can escape __process_buffer into datagram_received's
handler: header.decode("ascii") failure and body decode("utf-8") failure. -/
inductive Exc where
  | headerDecode
  | bodyDecode
  deriving DecidableEq, Repr

/-- The bytes sys.stdout.write receives for one reconstructed message: the
UTF-8 bytes of the f-string Content-Length: {len(message)}CRLFCRLF{message}.
Note len(message) is the Python character count of the decoded body. -/
def synthMessage (cps : List Nat) : List Nat :=
  clLit ++ natToDecDigits cps.length ++ [13, 10, 13, 10] ++ utf8Encode cps

/-- UDPReceiveToStdoutProtocol.__process_buffer: the while-True loop.  Each
iteration parses a header when no length is declared, then waits for or
extracts a full body.  An Exc result models an exception propagating out of
the method with the state as mutated so far (the header split happens before
the ascii decode; the body decode happens before the buffer is consumed). -/
def processBuffer : RecvState → RecvState × List Out × Option Exc
  | ⟨buf, none⟩ =>
    match h : splitAtDelim buf with
    | none => (⟨buf, none⟩, [], none)
    | some (header, rest) =>
      if header.all (fun b => b < 128) then
        match searchCL header with
        | none => (⟨rest, none⟩, [Out.logError "Invalid header received"], none)
        | some n => processBuffer ⟨rest, some n⟩
      else (⟨rest, none⟩, [], some Exc.headerDecode)
  | ⟨buf, some n⟩ =>
    if buf.length < n then (⟨buf, some n⟩, [], none)
    else
      match utf8Decode (buf.take n) with
      | none => (⟨buf, some n⟩, [], some Exc.bodyDecode)
      | some cps =>
        let rest := buf.drop n
        let out := Out.stdout (synthMessage cps)
        if rest = [] then (⟨[], none⟩, [out], none)
        else
          let r := processBuffer ⟨rest, none⟩
          (r.1, out :: r.2.1, r.2.2)
  termination_by s => 2 * s.buffer.length + (match s.contentLength with
    | none => 1
    | some _ => 2)
  decreasing_by
  · have he := splitAtDelim_some h
    subst he
    simp [List.length_append]
    omega
  · simp [List.length_drop]
    omega

/-- UDPReceiveToStdoutProtocol.datagram_received: extends the buffer with the
datagram and processes it; any exception from processing is caught and
logged.  The source ignores the sender address entirely. -/
def datagramReceived (s : RecvState) (data : List Nat) (addr : Nat × Nat) :
    RecvState × List Out :=
  let s1 : RecvState := ⟨s.buffer ++ data, s.contentLength⟩
  let r := processBuffer s1
  match r.2.2 with
  | none => (r.1, r.2.1)
  | some _ => (r.1, r.2.1 ++ [Out.logError "Error processing datagram"])

/-- Feed a sequence of datagrams to the receiver, accumulating outputs.  The
address is fixed (datagram_received never reads it). -/
def feedDatagrams (s : RecvState) : List (List Nat) → RecvState × List Out
  | [] => (s, [])
  | d :: ds =>
    let r1 := datagramReceived s d (0, 0)
    let r2 := feedDatagrams r1.1 ds
    (r2.1, r1.2 ++ r2.2)

/-- A well-formed framed message: a canonical header declaring the body byte
length, the delimiter, then the body. -/
def framedMsg (body : List Nat) : List Nat :=
  clLit ++ natToDecDigits body.length ++ [13, 10, 13, 10] ++ body

/-- Length of the header part (before the delimiter) of framedMsg. -/
def headerLen (body : List Nat) : Nat :=
  clLit.length + (natToDecDigits body.length).length

/-! ## Supervisor (SCRunner) -/

/-- Bytes str.rstrip() removes: ASCII whitespace (space, tab, LF, VT, FF,
CR); the inputs of interest contain no other Unicode whitespace. -/
def wsByte (b : Nat) : Bool :=
  b = 32 || b = 9 || b = 10 || b = 11 || b = 12 || b = 13

/-- line.decode().rstrip() on an already decoded line. -/
def rstrip (l : List Nat) : List Nat := (l.reverse.dropWhile wsByte).reverse

/-- Python's substring containment test pat in l. -/
def containsSub (pat : List Nat) : List Nat → Bool
  | [] => pat = ([] : List Nat)
  | b :: rest => hasLead pat (b :: rest) || containsSub pat rest

/-- SCRunner.ready_message as codepoints. -/
def readyMessage : List Nat := asciiBytes "***LSP READY***"

/-- SCRunner.__receive_output over a list of already decoded child output
lines: logs each nonempty line and, for every line containing the readiness
marker, logs and creates the receiver and sender startup tasks.  There is no
guard against the marker occurring more than once. -/
def receiveOutputEvents (lines : List (List Nat)) : List Out :=
  lines.flatMap (fun line =>
    let output := rstrip line
    (if output ≠ [] then [Out.logLine output] else [])
      ++ (if containsSub readyMessage output then
            [Out.logInfo "ready message received", Out.startReceiver,
             Out.startSender]
          else []))

/-- The SCRunner attributes that stop() consults: the sender (with its
_closed flag) if created, whether the receiver transport and stdin thread
were created, and whether a subprocess exists and is still alive
(returncode is None). -/
structure RunnerState where
  udpSender : Option Bool
  udpReceiverCreated : Bool
  stdinThreadCreated : Bool
  subprocessAlive : Option Bool
  deriving DecidableEq, Repr

/-- SCRunner.stop: logs, closes the sender if created, closes the receiver
if created, joins the stdin thread (timeout 5) and then signals its stop
event, and terminates the subprocess if it is still alive.  Returns the
updated state and the emitted events in program order. -/
def SCRunner.stop (st : RunnerState) : RunnerState × List Out :=
  let senderRes : Option Bool × List Out :=
    match st.udpSender with
    | none => (none, [])
    | some c =>
      let r := UDPSender.close c
      (some r.1, r.2)
  let rOuts := if st.udpReceiverCreated then [Out.receiverClose] else []
  let tOuts := if st.stdinThreadCreated then [Out.stdinJoin, Out.stdinSignalStop]
    else []
  let pOuts := if st.subprocessAlive = some true then [Out.terminateChild]
    else []
  ({st with udpSender := senderRes.1},
   [Out.logInfo "Stopping SCRunner"] ++ senderRes.2 ++ rOuts ++ tOuts ++ pOuts)

/-- Port resolution in main: the both-or-neither check on the argparse
values, then either the explicit ports (note the swap: receive_port takes
the send-port argument and send_port the receive-port argument) or the two
free ports when either value is falsy (absent or zero).  Returns
(receive_port, send_port). -/
def resolvePorts (sendArg recvArg : Option Nat) (free : Nat × Nat) :
    Except String (Nat × Nat) :=
  if sendArg.isNone != recvArg.isNone then
    Except.error "Both server and client port must specified (or neither)"
  else
    match sendArg, recvArg with
    | some sp, some rp => if sp ≠ 0 ∧ rp ≠ 0 then .ok (sp, rp) else .ok free
    | _, _ => .ok free

/-- The additional environment variables SCRunner.start injects, from the
runner's send_port and receive_port attributes. -/
def scEnvVars (serverLogLevel : String) (sendPort receivePort : Nat) :
    List (String × String) :=
  [("SCLANG_LSP_ENABLE", "1"),
   ("SCLANG_LSP_LOGLEVEL", serverLogLevel),
   ("SCLANG_LSP_CLIENTPORT", toString sendPort),
   ("SCLANG_LSP_SERVERPORT", toString receivePort)]

/-! ## Helper lemmas -/

/-- Closing an already closed sender repeatedly does nothing. -/
theorem closeIter_closed (n : Nat) : closeIter n true = (true, []) := by
  induction n with
  | zero => rfl
  | succ m ih => simp [closeIter, UDPSender.close, ih]

/-- UTF-8 encoding distributes over append. -/
theorem utf8Encode_append (a b : List Nat) :
    utf8Encode (a ++ b) = utf8Encode a ++ utf8Encode b := by
  simp [utf8Encode]

/-- ASCII codepoints encode to one byte each. -/
theorem utf8Encode_length_ascii {l : List Nat} (h : ∀ c ∈ l, c < 128) :
    (utf8Encode l).length = l.length := by
  induction l with
  | nil => rfl
  | cons c cs ih =>
    have hc : c < 128 := h c (by simp)
    have : utf8EncodeChar c = [c] := by rw [utf8EncodeChar, if_pos (by omega)]
    simp only [utf8Encode, List.flatMap_cons, this, List.length_append]
    have := ih (fun x hx => h x (by simp [hx]))
    simp [utf8Encode] at this
    simp [this]
    omega

/-- Concatenating the 508-wide slices of a list restores the list, as long
as the slice count covers its length. -/
theorem flatten_range_slices (n : Nat) (l : List Nat) (h : l.length ≤ n * 508) :
    ((List.range n).map (fun i => (l.drop (i * 508)).take 508)).flatten = l := by
  induction n generalizing l with
  | zero =>
    have : l = [] := List.eq_nil_of_length_eq_zero (by omega)
    simp [this]
  | succ m ih =>
    rw [List.range_succ_eq_map]
    simp only [List.map_cons, List.map_map, List.flatten_cons, Nat.zero_mul,
      List.drop_zero]
    have h2 : List.map ((fun i => (l.drop (i * 508)).take 508) ∘ Nat.succ)
        (List.range m)
        = List.map (fun i => ((l.drop 508).drop (i * 508)).take 508)
            (List.range m) := by
      refine List.map_congr_left (fun i _ => ?_)
      show (l.drop (Nat.succ i * 508)).take 508
          = ((l.drop 508).drop (i * 508)).take 508
      rw [List.drop_drop]
      have h3 : Nat.succ i * 508 = 508 + i * 508 := by omega
      rw [h3]
    rw [h2, ih (l.drop 508) (by rw [List.length_drop]; omega)]
    exact List.take_append_drop 508 l

/-- The number of slices taken by the sender. -/
theorem sliceChunks_length (l : List Nat) :
    (sliceChunks l).length = (l.length + 507) / 508 := by
  simp [sliceChunks, MAX_UDP_PACKET_SIZE]

/-- Every slice is at most 508 elements long. -/
theorem sliceChunks_le (l : List Nat) : ∀ d ∈ sliceChunks l, d.length ≤ 508 := by
  intro d hd
  simp only [sliceChunks, MAX_UDP_PACKET_SIZE, List.mem_map, List.mem_range] at hd
  obtain ⟨i, _, rfl⟩ := hd
  simp [List.length_take]

/-- Encoding slices and concatenating equals encoding the concatenation. -/
theorem flatten_map_utf8Encode (L : List (List Nat)) :
    (L.map utf8Encode).flatten = utf8Encode L.flatten := by
  induction L with
  | nil => simp [utf8Encode]
  | cons d ds ih => simp [utf8Encode_append, ih]

/-- The slices concatenate back to the original list. -/
theorem sliceChunks_flatten (l : List Nat) : (sliceChunks l).flatten = l := by
  have : l.length ≤ ((l.length + 507) / 508) * 508 := by omega
  simpa [sliceChunks, MAX_UDP_PACKET_SIZE] using
    flatten_range_slices ((l.length + 507) / 508) l this

/-- Every element of a slice is an element of the sliced list. -/
theorem sliceChunks_mem {l d : List Nat} (hd : d ∈ sliceChunks l) :
    ∀ c ∈ d, c ∈ l := by
  simp only [sliceChunks, MAX_UDP_PACKET_SIZE, List.mem_map, List.mem_range] at hd
  obtain ⟨i, _, rfl⟩ := hd
  intro c hc
  exact List.mem_of_mem_drop (List.mem_of_mem_take hc)

/-- With sufficient fuel, the decimal digit bytes of n are digits, nonempty,
and evaluate back to n. -/
theorem natToDecDigitsAux_spec :
    ∀ fuel n, n < fuel →
      (∀ b ∈ natToDecDigitsAux fuel n, 48 ≤ b ∧ b ≤ 57)
      ∧ natToDecDigitsAux fuel n ≠ []
      ∧ digitsToNat (natToDecDigitsAux fuel n) = n := by
  intro fuel
  induction fuel with
  | zero => intro n h; exact absurd h (Nat.not_lt_zero n)
  | succ m ih =>
    intro n hn
    by_cases h10 : n < 10
    · refine ⟨?_, ?_, ?_⟩ <;> simp [natToDecDigitsAux, h10, digitsToNat]
      omega
    · have hrec := ih (n / 10) (by omega)
      rw [natToDecDigitsAux, if_neg h10]
      refine ⟨?_, by simp, ?_⟩
      · intro b hb
        rcases List.mem_append.mp hb with h | h
        · exact hrec.1 b h
        · simp at h
          omega
      · rw [digitsToNat, List.foldl_append]
        have hv := hrec.2.2
        rw [digitsToNat] at hv
        rw [hv]
        simp only [List.foldl_cons, List.foldl_nil]
        omega

/-- The decimal representation consists of ASCII digits. -/
theorem natToDecDigits_digits (n : Nat) :
    ∀ b ∈ natToDecDigits n, 48 ≤ b ∧ b ≤ 57 :=
  (natToDecDigitsAux_spec (n + 1) n (by omega)).1

/-- The decimal representation is never empty. -/
theorem natToDecDigits_ne_nil (n : Nat) : natToDecDigits n ≠ [] :=
  (natToDecDigitsAux_spec (n + 1) n (by omega)).2.1

/-- Parsing the decimal representation gives the number back. -/
theorem digitsToNat_natToDecDigits (n : Nat) :
    digitsToNat (natToDecDigits n) = n :=
  (natToDecDigitsAux_spec (n + 1) n (by omega)).2.2

/-- takeWhile keeps a list all of whose elements satisfy the predicate. -/
theorem takeWhile_all {p : Nat → Bool} {l : List Nat} (h : ∀ b ∈ l, p b) :
    l.takeWhile p = l := by
  induction l with
  | nil => rfl
  | cons b bs ih =>
    rw [List.takeWhile_cons, if_pos (h b (by simp))]
    rw [ih (fun x hx => h x (by simp [hx]))]

/-- A list has itself as leading part of any extension. -/
theorem hasLead_append (p r : List Nat) : hasLead p (p ++ r) = true := by
  induction p with
  | nil => rfl
  | cons a ps ih => simp [hasLead, ih]

/-- No byte of the canonical header (literal plus digits) is a CR. -/
theorem header_no13 (n : Nat) : ∀ b ∈ clLit ++ natToDecDigits n, b ≠ 13 := by
  intro b hb
  rcases List.mem_append.mp hb with h | h
  · revert h
    have : ∀ b ∈ clLit, b ≠ 13 := by decide
    exact this b
  · have := natToDecDigits_digits n b h
    omega

/-- Every byte of the canonical header is ASCII. -/
theorem header_ascii (n : Nat) :
    (clLit ++ natToDecDigits n).all (fun b => b < 128) = true := by
  rw [List.all_eq_true]
  intro b hb
  rcases List.mem_append.mp hb with h | h
  · revert h
    have : ∀ b ∈ clLit, (fun b => decide (b < 128)) b = true := by decide
    exact this b
  · have := natToDecDigits_digits n b h
    simp
    omega

/-- If the bytes before it contain no CR, the first CRLFCRLF is found right
where it is appended. -/
theorem splitAtDelim_append {l : List Nat} (h13 : ∀ b ∈ l, b ≠ 13)
    (r : List Nat) :
    splitAtDelim (l ++ 13 :: 10 :: 13 :: 10 :: r) = some (l, r) := by
  induction l with
  | nil => simp [splitAtDelim]
  | cons a ls ih =>
    have ha : a ≠ 13 := h13 a (by simp)
    rw [List.cons_append, splitAtDelim.eq_def]
    simp [ha, ih (fun x hx => h13 x (by simp [hx]))]

/-- A CR-free list followed by at most a proper front of the delimiter
contains no delimiter. -/
theorem splitAtDelim_front {l : List Nat} (h13 : ∀ b ∈ l, b ≠ 13)
    {t : List Nat}
    (ht : t = [] ∨ t = [13] ∨ t = [13, 10] ∨ t = [13, 10, 13]) :
    splitAtDelim (l ++ t) = none := by
  induction l with
  | nil =>
    rcases ht with rfl | rfl | rfl | rfl <;> decide
  | cons a ls ih =>
    have ha : a ≠ 13 := h13 a (by simp)
    rw [List.cons_append, splitAtDelim.eq_def]
    simp [ha, ih (fun x hx => h13 x (by simp [hx]))]

/-- The regex search succeeds immediately on a match at the head. -/
theorem searchCL_of_matchCLAt {l : List Nat} {n : Nat} (hne : l ≠ [])
    (h : matchCLAt l = some n) : searchCL l = some n := by
  match l with
  | [] => exact absurd rfl hne
  | b :: rest => rw [searchCL, h]

/-- Searching the canonical header finds exactly the declared length. -/
theorem searchCL_canonical (n : Nat) :
    searchCL (clLit ++ natToDecDigits n) = some n := by
  refine searchCL_of_matchCLAt (by simp [clLit, asciiBytes]) ?_
  rw [matchCLAt, if_pos (hasLead_append clLit (natToDecDigits n))]
  rw [List.drop_left]
  rw [takeWhile_all (fun b hb => by
    have := natToDecDigits_digits n b hb
    simp [isDigitByte]
    omega)]
  rw [if_neg (natToDecDigits_ne_nil n)]
  rw [digitsToNat_natToDecDigits]

/-- processBuffer with no declared length waits when no delimiter is
present. -/
theorem processBuffer_no_delim {buf : List Nat}
    (h : splitAtDelim buf = none) :
    processBuffer ⟨buf, none⟩ = (⟨buf, none⟩, [], none) := by
  rw [processBuffer.eq_1]
  split
  · rfl
  · simp_all

/-- processBuffer logs and stops on a header without a parseable length,
having already consumed the header from the buffer. -/
theorem processBuffer_bad_header {buf header rest : List Nat}
    (hsplit : splitAtDelim buf = some (header, rest))
    (hascii : header.all (fun b => b < 128) = true)
    (hcl : searchCL header = none) :
    processBuffer ⟨buf, none⟩
      = (⟨rest, none⟩, [Out.logError "Invalid header received"], none) := by
  rw [processBuffer.eq_1]
  split
  · simp_all
  · rename_i header1 rest1 heq
    rw [hsplit] at heq
    simp only [Option.some.injEq, Prod.mk.injEq] at heq
    obtain ⟨h1, h2⟩ := heq
    subst h1 h2
    rw [if_pos hascii, hcl]

/-- processBuffer continues with the declared length once a header with a
parseable length is split off. -/
theorem processBuffer_good_header {buf header rest : List Nat} {n : Nat}
    (hsplit : splitAtDelim buf = some (header, rest))
    (hascii : header.all (fun b => b < 128) = true)
    (hcl : searchCL header = some n) :
    processBuffer ⟨buf, none⟩ = processBuffer ⟨rest, some n⟩ := by
  rw [processBuffer.eq_1]
  split
  · simp_all
  · rename_i header1 rest1 heq
    rw [hsplit] at heq
    simp only [Option.some.injEq, Prod.mk.injEq] at heq
    obtain ⟨h1, h2⟩ := heq
    subst h1 h2
    rw [if_pos hascii, hcl]

/-- processBuffer waits when fewer bytes than the declared length are
buffered. -/
theorem processBuffer_wait {buf : List Nat} {n : Nat} (h : buf.length < n) :
    processBuffer ⟨buf, some n⟩ = (⟨buf, some n⟩, [], none) := by
  rw [processBuffer.eq_2]
  simp [h]

/-- processBuffer raises out of the body decode, leaving the buffer and the
declared length in place. -/
theorem processBuffer_bad_body {buf : List Nat} {n : Nat}
    (hlen : ¬ buf.length < n) (hdec : utf8Decode (buf.take n) = none) :
    processBuffer ⟨buf, some n⟩ = (⟨buf, some n⟩, [], some Exc.bodyDecode) := by
  rw [processBuffer.eq_2]
  simp [hlen, hdec]

/-- processBuffer emits the re-synthesized message and resets when the
buffer holds exactly the declared number of bytes and they decode. -/
theorem processBuffer_emit_exact {buf : List Nat} {n : Nat} {cps : List Nat}
    (hlen : buf.length = n) (hdec : utf8Decode buf = some cps) :
    processBuffer ⟨buf, some n⟩
      = (⟨[], none⟩, [Out.stdout (synthMessage cps)], none) := by
  rw [processBuffer.eq_2]
  have htake : buf.take n = buf := by
    rw [← hlen, List.take_length]
  have hdrop : buf.drop n = [] := by
    rw [← hlen, List.drop_length]
  simp [hlen, htake, hdrop, hdec]

/-- The receiver state after consuming the first k bytes of a framed
message: the raw bytes while the delimiter is incomplete, otherwise the
body part received so far with the parsed length. -/
def midState (body : List Nat) (k : Nat) : RecvState :=
  if k < headerLen body + 4 then ⟨(framedMsg body).take k, none⟩
  else ⟨body.take (k - (headerLen body + 4)), some body.length⟩

theorem midState_lt {body : List Nat} {k : Nat} (h : k < headerLen body + 4) :
    midState body k = ⟨(framedMsg body).take k, none⟩ := by
  rw [midState, if_pos h]

theorem midState_ge {body : List Nat} {k : Nat} (h : ¬ k < headerLen body + 4) :
    midState body k
      = ⟨body.take (k - (headerLen body + 4)), some body.length⟩ := by
  rw [midState, if_neg h]

/-- The framed message split as header then delimiter-and-body. -/
theorem framedMsg_decomp (body : List Nat) :
    framedMsg body
      = (clLit ++ natToDecDigits body.length) ++ 13 :: 10 :: 13 :: 10 :: body := by
  simp [framedMsg]

/-- The framed message split as everything-before-body then body. -/
theorem framedMsg_decomp2 (body : List Nat) :
    framedMsg body
      = (clLit ++ natToDecDigits body.length ++ [13, 10, 13, 10]) ++ body := by
  simp [framedMsg]

theorem headerLen_eq (body : List Nat) :
    (clLit ++ natToDecDigits body.length).length = headerLen body := by
  simp [headerLen, List.length_append]

theorem headPart_length (body : List Nat) :
    (clLit ++ natToDecDigits body.length ++ [13, 10, 13, 10]).length
      = headerLen body + 4 := by
  simp [headerLen, List.length_append]
  omega

theorem framedMsg_length (body : List Nat) :
    (framedMsg body).length = headerLen body + 4 + body.length := by
  rw [framedMsg_decomp2, List.length_append, headPart_length]

/-- Before the delimiter is complete, the buffered part of a framed message
contains no delimiter. -/
theorem splitAtDelim_take_lt (body : List Nat) {k : Nat}
    (hk : k < headerLen body + 4) :
    splitAtDelim ((framedMsg body).take k) = none := by
  rw [framedMsg_decomp, List.take_append_eq_append_take]
  apply splitAtDelim_front
  · intro b hb
    exact header_no13 body.length b (List.mem_of_mem_take hb)
  · rw [headerLen_eq]
    set m := k - headerLen body with hm
    have hm3 : m ≤ 3 := by omega
    interval_cases m <;> simp

/-- Once the delimiter region is covered, the buffered part of a framed
message is the full header, the delimiter, and a body part. -/
theorem take_ge_decomp (body : List Nat) {k : Nat}
    (hk4 : headerLen body + 4 ≤ k) :
    (framedMsg body).take k
      = (clLit ++ natToDecDigits body.length)
          ++ 13 :: 10 :: 13 :: 10 :: body.take (k - (headerLen body + 4)) := by
  rw [framedMsg_decomp2, List.take_append_eq_append_take]
  rw [List.take_of_length_le (by rw [headPart_length]; omega)]
  rw [headPart_length]
  simp [List.append_assoc]

/-- Dropping past the delimiter region lands inside the body. -/
theorem drop_ge_decomp (body : List Nat) {k : Nat}
    (hk4 : headerLen body + 4 ≤ k) :
    (framedMsg body).drop k = body.drop (k - (headerLen body + 4)) := by
  rw [framedMsg_decomp2, List.drop_append_eq_append_drop]
  rw [List.drop_eq_nil_of_le (by rw [headPart_length]; omega)]
  rw [headPart_length]
  simp

/-- datagram_received, restated over the state fields. -/
theorem datagramReceived_eq (buf : List Nat) (cl : Option Nat)
    (data : List Nat) (a : Nat × Nat) :
    datagramReceived ⟨buf, cl⟩ data a
      = match (processBuffer ⟨buf ++ data, cl⟩).2.2 with
        | none => ((processBuffer ⟨buf ++ data, cl⟩).1,
            (processBuffer ⟨buf ++ data, cl⟩).2.1)
        | some _ => ((processBuffer ⟨buf ++ data, cl⟩).1,
            (processBuffer ⟨buf ++ data, cl⟩).2.1
              ++ [Out.logError "Error processing datagram"]) := rfl

/-- Feeding one further segment of a framed message advances the receiver
from the k-byte state to the (k + segment)-byte state, emitting exactly the
re-synthesized message when the segment completes the body. -/
theorem datagramReceived_step (body cps : List Nat)
    (hdec : utf8Decode body = some cps) (k : Nat) (d : List Nat)
    (hk : k < (framedMsg body).length)
    (hk' : k + d.length ≤ (framedMsg body).length)
    (hd : d = ((framedMsg body).drop k).take d.length) :
    datagramReceived (midState body k) d (0, 0)
      = if k + d.length < (framedMsg body).length
        then (midState body (k + d.length), [])
        else (⟨[], none⟩, [Out.stdout (synthMessage cps)]) := by
  have hL := framedMsg_length body
  by_cases hkh : k < headerLen body + 4
  · rw [midState_lt hkh, datagramReceived_eq]
    have happ : (framedMsg body).take k ++ d
        = (framedMsg body).take (k + d.length) := by
      conv_lhs => rw [hd]
      rw [List.take_add]
    rw [happ]
    by_cases hk'h : k + d.length < headerLen body + 4
    · rw [processBuffer_no_delim (splitAtDelim_take_lt body hk'h)]
      rw [if_pos (by omega), midState_lt hk'h]
    · rw [take_ge_decomp body (by omega)]
      rw [processBuffer_good_header
        (splitAtDelim_append (header_no13 body.length) _)
        (header_ascii body.length) (searchCL_canonical body.length)]
      by_cases hend : k + d.length < (framedMsg body).length
      · have hlt : (body.take (k + d.length - (headerLen body + 4))).length
            < body.length := by
          rw [List.length_take]
          omega
        rw [processBuffer_wait hlt, if_pos hend, midState_ge (by omega)]
      · have hkL : k + d.length = (framedMsg body).length := by omega
        have hfull : body.take (k + d.length - (headerLen body + 4)) = body := by
          rw [List.take_of_length_le (by omega)]
        rw [hfull]
        rw [processBuffer_emit_exact rfl hdec, if_neg hend]
  · rw [midState_ge hkh, datagramReceived_eq]
    have harith : k + d.length - (headerLen body + 4)
        = (k - (headerLen body + 4)) + d.length := by omega
    have happ : body.take (k - (headerLen body + 4)) ++ d
        = body.take (k + d.length - (headerLen body + 4)) := by
      conv_lhs => rw [hd, drop_ge_decomp body (by omega)]
      rw [harith, List.take_add]
    rw [happ]
    by_cases hend : k + d.length < (framedMsg body).length
    · have hlt : (body.take (k + d.length - (headerLen body + 4))).length
          < body.length := by
        rw [List.length_take]
        omega
      rw [processBuffer_wait hlt, if_pos hend, midState_ge (by omega)]
    · have hfull : body.take (k + d.length - (headerLen body + 4)) = body := by
        rw [List.take_of_length_le (by omega)]
      rw [hfull, processBuffer_emit_exact rfl hdec, if_neg hend]

/-- One feed step, unfolded. -/
theorem feedDatagrams_cons (s : RecvState) (d : List Nat)
    (ds : List (List Nat)) :
    feedDatagrams s (d :: ds)
      = ((feedDatagrams (datagramReceived s d (0, 0)).1 ds).1,
         (datagramReceived s d (0, 0)).2
           ++ (feedDatagrams (datagramReceived s d (0, 0)).1 ds).2) := rfl

/-- Feeding datagrams that carry no bytes leaves a fresh receiver alone. -/
theorem feedDatagrams_empty (ds : List (List Nat)) (h : ds.flatten = []) :
    feedDatagrams ⟨[], none⟩ ds = (⟨[], none⟩, []) := by
  induction ds with
  | nil => rfl
  | cons d rest ih =>
    simp only [List.flatten_cons, List.append_eq_nil] at h
    obtain ⟨hd, hr⟩ := h
    subst hd
    have h1 : datagramReceived ⟨[], none⟩ [] (0, 0) = (⟨[], none⟩, []) := by
      rw [datagramReceived_eq, processBuffer_no_delim (by decide)]
      rfl
    rw [feedDatagrams_cons, h1]
    simp [ih hr]

/-- Feeding the datagrams that complete a framed message from the k-byte
state emits exactly the one re-synthesized message. -/
theorem feedDatagrams_mid (body cps : List Nat)
    (hdec : utf8Decode body = some cps) :
    ∀ (ds : List (List Nat)) (k : Nat), k < (framedMsg body).length →
      (framedMsg body).take k ++ ds.flatten = framedMsg body →
      feedDatagrams (midState body k) ds
        = (⟨[], none⟩, [Out.stdout (synthMessage cps)]) := by
  intro ds
  induction ds with
  | nil =>
    intro k hk hflat
    exfalso
    simp only [List.flatten_nil, List.append_nil] at hflat
    have := congrArg List.length hflat
    rw [List.length_take] at this
    omega
  | cons d rest ih =>
    intro k hk hflat
    have hlen_take : ((framedMsg body).take k).length = k := by
      rw [List.length_take]
      omega
    have htotal : k + (d.length + rest.flatten.length)
        = (framedMsg body).length := by
      have := congrArg List.length hflat
      simp only [List.flatten_cons, List.length_append, hlen_take] at this
      omega
    have hk2 : k + d.length ≤ (framedMsg body).length := by omega
    have hdrop : (framedMsg body).drop k = d ++ rest.flatten := by
      have h2 : (framedMsg body).take k ++ (framedMsg body).drop k
          = framedMsg body := List.take_append_drop k _
      have h3 : (framedMsg body).take k ++ (d ++ rest.flatten)
          = (framedMsg body).take k ++ (framedMsg body).drop k := by
        rw [h2]
        simpa [List.append_assoc] using hflat
      exact (List.append_cancel_left h3).symm
    have hd : d = ((framedMsg body).drop k).take d.length := by
      rw [hdrop]
      exact (List.take_left d rest.flatten).symm
    have hstep := datagramReceived_step body cps hdec k d hk hk2 hd
    rw [feedDatagrams_cons, hstep]
    by_cases hend : k + d.length < (framedMsg body).length
    · rw [if_pos hend]
      have hflat2 : (framedMsg body).take (k + d.length) ++ rest.flatten
          = framedMsg body := by
        have ht : (framedMsg body).take (k + d.length)
            = (framedMsg body).take k ++ d := by
          conv_rhs => rw [hd]
          rw [List.take_add]
        rw [ht, List.append_assoc]
        simpa [List.append_assoc] using hflat
      simp [ih (k + d.length) hend hflat2]
    · rw [if_neg hend]
      have hre : rest.flatten = [] :=
        List.eq_nil_of_length_eq_zero (by omega)
      simp [feedDatagrams_empty rest hre]

/-- Any datagram fragmentation of a well-formed framed message with a
decodable body makes a fresh receiver emit exactly one message. -/
theorem feedDatagrams_reassemble (body cps : List Nat)
    (hdec : utf8Decode body = some cps) (ds : List (List Nat))
    (hflat : ds.flatten = framedMsg body) :
    feedDatagrams ⟨[], none⟩ ds
      = (⟨[], none⟩, [Out.stdout (synthMessage cps)]) := by
  have h0 : 0 < (framedMsg body).length := by
    rw [framedMsg_length]
    omega
  have hmain := feedDatagrams_mid body cps hdec ds 0 h0 (by simpa using hflat)
  have hms : midState body 0 = ⟨[], none⟩ := by
    rw [midState_lt (by omega), List.take_zero]
  rwa [hms] at hmain

/-! ## Claims -/

/-- Claim C1 counterexample: UDPSender.send slices text payloads by
characters before encoding, so 300 copies of the two-byte character U+00E9
(600 UTF-8 bytes) go out as a single 600-byte datagram: not every datagram
is at most 508 bytes, and the count is 1, not ceil(600/508) = 2. -/
theorem send_oversized_datagram_counterexample :
    ¬ ((UDPSender.send false (Payload.text (List.replicate 300 233))).all
        (fun o => match o with | Out.sendto d => d.length ≤ 508 | _ => true))
    ∧ (UDPSender.send false (Payload.text (List.replicate 300 233))).length = 1
    ∧ (utf8Encode (List.replicate 300 233)).length = 600
    ∧ (600 + 507) / 508 = 2 := by
  refine ⟨?_, ?_, ?_, ?_⟩ <;> decide

/-- Claim C1 (amended): while open, the sender emits one datagram per
508-element slice of the payload.  For byte payloads of length L that is
exactly ceil(L/508) datagrams, each at most 508 bytes, concatenating to the
original bytes.  For text payloads slicing is by characters: ceil(N/508)
datagrams for N characters, whose concatenation is the UTF-8 encoding of the
whole message; the 508-byte bound per datagram holds when the text is all
ASCII (but not in general). -/
theorem send_chunk_spec (bs cps : List Nat) :
    (UDPSender.send false (.bytes bs) = (sliceChunks bs).map Out.sendto
      ∧ (sliceChunks bs).length = (bs.length + 507) / 508
      ∧ (∀ d ∈ sliceChunks bs, d.length ≤ 508)
      ∧ (sliceChunks bs).flatten = bs)
    ∧ (UDPSender.send false (.text cps)
          = ((sliceChunks cps).map utf8Encode).map Out.sendto
      ∧ ((sliceChunks cps).map utf8Encode).length = (cps.length + 507) / 508
      ∧ ((sliceChunks cps).map utf8Encode).flatten = utf8Encode cps
      ∧ ((∀ c ∈ cps, c < 128) →
          ∀ d ∈ (sliceChunks cps).map utf8Encode, d.length ≤ 508)) := by
  refine ⟨⟨rfl, sliceChunks_length bs, sliceChunks_le bs, sliceChunks_flatten bs⟩,
    rfl, ?_, ?_, ?_⟩
  · rw [List.length_map]
    exact sliceChunks_length cps
  · rw [flatten_map_utf8Encode, sliceChunks_flatten]
  · intro hascii d hd
    simp only [List.mem_map] at hd
    obtain ⟨sl, hsl, rfl⟩ := hd
    rw [utf8Encode_length_ascii (fun c hc => hascii c (sliceChunks_mem hsl c hc))]
    exact sliceChunks_le cps sl hsl

/-- Witness for C1 at concrete payloads. -/
theorem send_chunk_spec_witness :
    (sliceChunks [1, 2, 3]).flatten = [1, 2, 3]
    ∧ ((sliceChunks [104, 105]).map utf8Encode).flatten = utf8Encode [104, 105]
    ∧ (∀ c ∈ [104, 105], c < 128) ∧
      ∀ d ∈ (sliceChunks [104, 105]).map utf8Encode, d.length ≤ 508 :=
  ⟨(send_chunk_spec [1, 2, 3] [104, 105]).1.2.2.2,
   (send_chunk_spec [1, 2, 3] [104, 105]).2.2.2.1,
   by decide,
   (send_chunk_spec [1, 2, 3] [104, 105]).2.2.2.2 (by decide)⟩

/-- Claim C7: UDPSender.close is idempotent: however many times close is
called on an open sender (at least once), the accumulated side effects equal
those of a single call; in particular the transport close and the closed-log
message each happen exactly once. -/
theorem udpsender_close_idempotent (n : Nat) (h : 1 ≤ n) :
    (closeIter n false).2
        = [Out.senderTransportClose, Out.logInfo "UDPSender closed"]
    ∧ (closeIter n false).2 = (UDPSender.close false).2
    ∧ (closeIter n false).2.count Out.senderTransportClose = 1
    ∧ (closeIter n false).2.count (Out.logInfo "UDPSender closed") = 1 := by
  obtain ⟨m, rfl⟩ : ∃ m, n = m + 1 := ⟨n - 1, by omega⟩
  simp [closeIter, UDPSender.close, closeIter_closed]

/-- Witness for C7 at two calls. -/
theorem udpsender_close_idempotent_witness :
    (closeIter 2 false).2
        = [Out.senderTransportClose, Out.logInfo "UDPSender closed"]
    ∧ (closeIter 2 false).2 = (UDPSender.close false).2
    ∧ (closeIter 2 false).2.count Out.senderTransportClose = 1
    ∧ (closeIter 2 false).2.count (Out.logInfo "UDPSender closed") = 1 :=
  udpsender_close_idempotent 2 (by decide)

/-- Claim C8: after close, send performs zero transport writes, raises no
exception, and logs the warning exactly once per call. -/
theorem send_after_close_noop (msg : Payload) :
    UDPSender.send true msg
        = [Out.logWarning "Attempted to send data on a closed UDPSender"]
    ∧ (UDPSender.send true msg).countP
        (fun o => match o with | Out.sendto _ => true | _ => false) = 0
    ∧ (UDPSender.send true msg).count
        (Out.logWarning "Attempted to send data on a closed UDPSender") = 1 := by
  refine ⟨rfl, ?_, ?_⟩ <;> simp [UDPSender.send]

/-- Claim C10: datagram handling is independent of the datagram's source
address: the same buffer, declared-length state and output result from any
two addresses. -/
theorem datagram_received_addr_independent (s : RecvState) (data : List Nat)
    (a1 a2 : Nat × Nat) :
    datagramReceived s data a1 = datagramReceived s data a2 := rfl

/-- Claim C9: with both ports given and nonzero, main assigns the send-port
argument to receive_port and the receive-port argument to send_port, so
SCLANG_LSP_SERVERPORT carries the send-port argument and
SCLANG_LSP_CLIENTPORT the receive-port argument; both ports given as zero
pass the both-or-neither check but fall through to free-port discovery. -/
theorem main_port_swap (sp rp : Nat) (h1 : sp ≠ 0) (h2 : rp ≠ 0)
    (free : Nat × Nat) (lvl : String) :
    resolvePorts (some sp) (some rp) free = .ok (sp, rp)
    ∧ (scEnvVars lvl rp sp).lookup "SCLANG_LSP_SERVERPORT"
        = some (toString sp)
    ∧ (scEnvVars lvl rp sp).lookup "SCLANG_LSP_CLIENTPORT"
        = some (toString rp)
    ∧ resolvePorts (some 0) (some 0) free = .ok free := by
  refine ⟨?_, ?_, ?_, ?_⟩
  · simp [resolvePorts, h1, h2]
  · simp [scEnvVars, List.lookup]
  · simp [scEnvVars, List.lookup]
  · simp [resolvePorts]

/-- Witness for C9 at concrete ports. -/
theorem main_port_swap_witness :
    resolvePorts (some 57110) (some 57120) (3, 4) = .ok (57110, 57120)
    ∧ (scEnvVars "warning" 57120 57110).lookup "SCLANG_LSP_SERVERPORT"
        = some (toString 57110)
    ∧ (scEnvVars "warning" 57120 57110).lookup "SCLANG_LSP_CLIENTPORT"
        = some (toString 57120)
    ∧ resolvePorts (some 0) (some 0) (3, 4) = .ok (3, 4) :=
  main_port_swap 57110 57120 (by decide) (by decide) (3, 4) "warning"

/-- Claim C3 counterexample: a repeated readiness marker starts the relay
again — with the marker on two lines the startup tasks are created twice,
not exactly once as the claim states. -/
theorem ready_marker_repeated_counterexample :
    (receiveOutputEvents
        [asciiBytes "compiling class library", readyMessage, readyMessage]).count
        Out.startReceiver ≠ 1
    ∧ (receiveOutputEvents
        [asciiBytes "compiling class library", readyMessage, readyMessage]).count
        Out.startReceiver = 2 := by
  constructor <;> decide

/-- Claim C3 (amended): relay components are never started by lines without
the readiness marker (so nothing starts before the first marker line), but
there is no once-guard: every line containing the marker creates one more
receiver startup task and one more sender startup task. -/
theorem receive_output_marker_count (lines : List (List Nat)) :
    (receiveOutputEvents lines).count Out.startReceiver
        = lines.countP (fun l => containsSub readyMessage (rstrip l))
    ∧ (receiveOutputEvents lines).count Out.startSender
        = lines.countP (fun l => containsSub readyMessage (rstrip l)) := by
  induction lines with
  | nil => simp [receiveOutputEvents]
  | cons l ls ih =>
    have hexp : receiveOutputEvents (l :: ls)
        = ((if rstrip l ≠ [] then [Out.logLine (rstrip l)] else [])
            ++ (if containsSub readyMessage (rstrip l) then
                  [Out.logInfo "ready message received", Out.startReceiver,
                   Out.startSender]
                else [])) ++ receiveOutputEvents ls := by
      simp [receiveOutputEvents]
    rw [hexp]
    have hcr : containsSub readyMessage ([] : List Nat) = false := by decide
    by_cases hm : containsSub readyMessage (rstrip l) <;>
      by_cases he : rstrip l = [] <;>
        simp [hm, he, hcr, List.count_append, List.countP_cons, ih.1, ih.2]

/-- Claim C6 counterexample: at a state where every component exists, stop()
joins the stdin thread before signalling its stop event — no
stdinSignalStop event precedes the stdinJoin event, contradicting the
claimed signal-then-join order. -/
theorem stop_signal_join_order_counterexample :
    ¬ ∃ i j : Fin ((SCRunner.stop ⟨some false, true, true, some true⟩).2.length),
        i < j
        ∧ (SCRunner.stop ⟨some false, true, true, some true⟩).2.get i
            = Out.stdinSignalStop
        ∧ (SCRunner.stop ⟨some false, true, true, some true⟩).2.get j
            = Out.stdinJoin := by
  decide

/-- Claim C6 (amended): stop() performs, in order: close the sender if
created, close the receiver if created, join the input relay with a bounded
timeout and then signal it to stop, then terminate the child if alive; each
step is skipped when its component was never created, and a repeated stop
never closes the sender transport again. -/
theorem scrunner_stop_spec (st : RunnerState) :
    (SCRunner.stop st).2 =
      [Out.logInfo "Stopping SCRunner"]
        ++ (match st.udpSender with
            | none => []
            | some c =>
              if c then []
              else [Out.senderTransportClose, Out.logInfo "UDPSender closed"])
        ++ (if st.udpReceiverCreated then [Out.receiverClose] else [])
        ++ (if st.stdinThreadCreated then [Out.stdinJoin, Out.stdinSignalStop]
            else [])
        ++ (if st.subprocessAlive = some true then [Out.terminateChild] else [])
    ∧ (SCRunner.stop (SCRunner.stop st).1).2.count Out.senderTransportClose = 0
    ∧ (SCRunner.stop st).2.count Out.senderTransportClose ≤ 1 := by
  obtain ⟨s, r, t, p⟩ := st
  refine ⟨?_, ?_, ?_⟩ <;>
    rcases s with _ | c <;> rcases p with _ | b <;> cases r <;> cases t <;>
      (try cases c) <;> (try cases b) <;> decide

/-- Claim C5: a delimiter-terminated header with no parseable Content-Length
value is logged as an error, produces no message, and stops processing that
buffer, with the consumed junk gone; any well-formed framed message whose
datagrams arrive afterwards is still reassembled and emitted — the receiver
does not deadlock. -/
theorem malformed_header_recovery (junk body cps : List Nat)
    (ds : List (List Nat))
    (hj13 : ∀ b ∈ junk, b ≠ 13)
    (hj128 : junk.all (fun b => b < 128) = true)
    (hjcl : searchCL junk = none)
    (hdec : utf8Decode body = some cps)
    (hds : ds.flatten = framedMsg body) :
    feedDatagrams ⟨[], none⟩ ((junk ++ [13, 10, 13, 10]) :: ds)
      = (⟨[], none⟩,
         Out.logError "Invalid header received"
           :: [Out.stdout (synthMessage cps)]) := by
  have h1 : datagramReceived ⟨[], none⟩ (junk ++ [13, 10, 13, 10]) (0, 0)
      = (⟨[], none⟩, [Out.logError "Invalid header received"]) := by
    have hsplit : splitAtDelim (([] : List Nat) ++ (junk ++ [13, 10, 13, 10]))
        = some (junk, []) := by
      rw [List.nil_append]
      exact splitAtDelim_append hj13 []
    rw [datagramReceived_eq, processBuffer_bad_header hsplit hj128 hjcl]
  rw [feedDatagrams_cons, h1]
  simp [feedDatagrams_reassemble body cps hdec ds hds]

/-- Witness for C5: junk header, then a well-formed two-byte message in one
later datagram. -/
theorem malformed_header_recovery_witness :
    feedDatagrams ⟨[], none⟩
        [asciiBytes "X-Foo: bar" ++ [13, 10, 13, 10],
         framedMsg (asciiBytes "ok")]
      = (⟨[], none⟩,
         Out.logError "Invalid header received"
           :: [Out.stdout (synthMessage (asciiBytes "ok"))]) :=
  malformed_header_recovery (asciiBytes "X-Foo: bar") (asciiBytes "ok")
    (asciiBytes "ok") [framedMsg (asciiBytes "ok")]
    (by decide) (by decide) (by decide) (by decide) (by simp)

/-- Claim C2 (code bug witness): the receiver re-synthesizes the header from
the character count of the decoded body (len of the Python str), not its
byte length.  For the framed message declaring 2 bytes whose body is the
UTF-8 encoding C3 A9 of the single character U+00E9, the emitted message
carries Content-Length 1 and so is not byte-identical to the original. -/
theorem resynth_header_uses_char_count :
    feedDatagrams ⟨[], none⟩ [framedMsg [195, 169]]
      = (⟨[], none⟩, [Out.stdout (synthMessage [233])])
    ∧ framedMsg [195, 169]
        = asciiBytes "Content-Length: 2" ++ [13, 10, 13, 10] ++ [195, 169]
    ∧ synthMessage [233]
        = asciiBytes "Content-Length: 1" ++ [13, 10, 13, 10] ++ [195, 169]
    ∧ synthMessage [233] ≠ framedMsg [195, 169] := by
  refine ⟨?_, by decide, by decide, by decide⟩
  exact feedDatagrams_reassemble [195, 169] [233] (by decide) _ (by simp)

/-- Claim C4 (code bug witness): a complete body that is not valid UTF-8 is
logged but never consumed: the decode raises before the buffer is advanced,
so the declared length and the bad byte stay at the head of the buffer and a
following well-formed message is never emitted. -/
theorem invalid_body_wedges_receiver :
    feedDatagrams ⟨[], none⟩ [framedMsg [255], framedMsg (asciiBytes "ok")]
      = (⟨255 :: framedMsg (asciiBytes "ok"), some 1⟩,
         [Out.logError "Error processing datagram",
          Out.logError "Error processing datagram"])
    ∧ utf8Decode [255] = none := by
  refine ⟨?_, by decide⟩
  have h1 : datagramReceived ⟨[], none⟩ (framedMsg [255]) (0, 0)
      = (⟨[255], some 1⟩, [Out.logError "Error processing datagram"]) := by
    have hsplit : splitAtDelim (([] : List Nat) ++ framedMsg [255])
        = some (clLit ++ natToDecDigits 1, [255]) := by decide
    have hlen : ¬ ([255] : List Nat).length < 1 := by decide
    have hdec : utf8Decode (([255] : List Nat).take 1) = none := by decide
    rw [datagramReceived_eq,
        processBuffer_good_header hsplit (header_ascii 1) (searchCL_canonical 1),
        processBuffer_bad_body hlen hdec]
    rfl
  have h2 : datagramReceived ⟨[255], some 1⟩ (framedMsg (asciiBytes "ok")) (0, 0)
      = (⟨[255] ++ framedMsg (asciiBytes "ok"), some 1⟩,
         [Out.logError "Error processing datagram"]) := by
    have hlen : ¬ (([255] : List Nat) ++ framedMsg (asciiBytes "ok")).length < 1 := by
      decide
    have hdec : utf8Decode ((([255] : List Nat)
        ++ framedMsg (asciiBytes "ok")).take 1) = none := by decide
    rw [datagramReceived_eq, processBuffer_bad_body hlen hdec]
    rfl
  rw [feedDatagrams_cons, h1]
  rw [show (( ⟨[255], some 1⟩ : RecvState), [Out.logError "Error processing datagram"]).1
      = (⟨[255], some 1⟩ : RecvState) from rfl]
  rw [feedDatagrams_cons, h2]
  simp [feedDatagrams]
